import Mathlib

/-!
Verification of the McCabe-Thiele binary distillation column solver.

The source program computes vapor-liquid equilibrium via the Antoine
equation and Raoult law, steps trays with operating lines, and finds the
reflux ratio by nested bisection.  We embed:

* the thermodynamic property model and the equilibrium residual functions
  over the real numbers (the source works with IEEE doubles; real
  arithmetic is the idealization the specification itself appeals to);
* the unbounded equilibrium bisection loops with an explicit fuel
  parameter (the source while-loops have no iteration cap, so the
  embedding returns `none` when the given fuel is exhausted; a run of the
  source terminates exactly when some fuel suffices);
* the outer reflux-ratio solver `columnSolver` over an arbitrary linear
  ordered field, parametrized by the residual oracle `delta` standing for
  the partially applied `feedTrayDelta(., args)` of the source and by the
  number `minRR` standing for the value of the source call
  `minimumRefluxRatio(xFeed, xDistillate, pressure, lc, hc)`.  The
  control flow of `columnSolver` depends on these inputs only through
  the values they return, so every terminating run of the source is a
  run of this model for the oracle agreeing with the source values.
  JavaScript numbers that the residual may produce are modelled by
  `JVal`, which keeps the two infinities and NaN so that the finiteness
  and sign tests of the source are translated exactly;
* the column data generation over an arbitrary linear ordered field,
  parametrized by the three vapor-liquid equilibrium inversion functions
  (with pressure and both constant records already applied), and with the
  JavaScript array modelled as a function from indices to `Option` trays
  (JavaScript arrays are sparse and extend on out-of-range writes).
-/

/-- Global tolerance constant of the source, TOL = 0.001. -/
def TOL : ℚ := 1/1000

/-- Global iteration cap of the source, MAXITERATIONS = 100. -/
def MAXITERATIONS : ℕ := 100

/-- Antoine equation constants record for one compound. -/
structure AntoineConsts where
  A : ℝ
  B : ℝ
  C : ℝ
  mol_wt : ℝ
  hVap : ℝ

/-- Constants of the light compound (propane). -/
noncomputable def propaneConstants : AntoineConsts :=
  { A := 4.53678, B := 1149.36, C := 24.906, mol_wt := 44.097, hVap := 6986.24159 }

/-- Constants of the heavy compound (butane). -/
noncomputable def butaneConstants : AntoineConsts :=
  { A := 4.35576, B := 1175.581, C := -2.071, mol_wt := 58.12, hVap := 9630.26533 }

/-- vaporPressure of the source: temperature in F, result in psia, Antoine
constants in K and bar. -/
noncomputable def vaporPressure (temperature : ℝ) (antConsts : AntoineConsts) : ℝ :=
  let tempK := (temperature - 32) * 5 / 9 + 273.15
  let logP := antConsts.A - antConsts.B / (tempK + antConsts.C)
  let Pbar := (10 : ℝ) ^ logP
  Pbar * 14.503773773

/-- boilingPointTemperature of the source: pressure in psia, result in F,
closed form inverse of the Antoine equation. -/
noncomputable def boilingPointTemperature (pressure : ℝ) (antConsts : AntoineConsts) : ℝ :=
  let pbar := pressure / 14.503773773
  let logP := Real.logb 10 pbar
  let tempK := antConsts.B / (antConsts.A - logP) - antConsts.C
  (tempK - 273.15) * 9 / 5 + 32

/-- binaryequilibriumEquationFromX of the source: Raoult law residual at a
given temperature for a fixed liquid composition. -/
noncomputable def binaryequilibriumEquationFromX (temperature pressure liqMolFrac : ℝ)
    (lightAntConsts heavyAntConsts : AntoineConsts) : ℝ :=
  let param1 := liqMolFrac * vaporPressure temperature lightAntConsts
  let param2 := (1 - liqMolFrac) * vaporPressure temperature heavyAntConsts
  pressure - (param1 + param2)

/-- binaryequilibriumEquationFromY of the source: Raoult law residual at a
given temperature for a fixed vapor composition. -/
noncomputable def binaryequilibriumEquationFromY (temperature pressure vaporMolFrac : ℝ)
    (lightAntConsts heavyAntConsts : AntoineConsts) : ℝ :=
  let param1 := vaporMolFrac * pressure / vaporPressure temperature lightAntConsts
  let param2 := (1 - vaporMolFrac) * pressure / vaporPressure temperature heavyAntConsts
  param1 + param2 - 1

/-- productRates of the source: distillate and bottoms rates from the feed
rate and the three composition specs. -/
def productRates {α : Type} [Field α] (feedRate feedXp distillateXp bottomsXp : α) : α × α :=
  let distillateRate := feedRate * (feedXp - bottomsXp) / (distillateXp - bottomsXp)
  let bottomsRate := feedRate - distillateRate
  (distillateRate, bottomsRate)

/-- CLAIM C4: boilingPointTemperature inverts vaporPressure exactly over the
reals, for every constants record with a nonzero Antoine B coefficient and
every temperature at which the Antoine expression is well defined, that is
the shifted Kelvin temperature T_K + C is nonzero.  (The resulting pressure
is automatically positive because the real power of 10 is positive.) -/
theorem boilingPoint_inverts_vaporPressure (T : ℝ) (c : AntoineConsts)
    (hB : c.B ≠ 0) (hC : (T - 32) * 5 / 9 + 273.15 + c.C ≠ 0) :
    boilingPointTemperature (vaporPressure T c) c = T := by
  simp only [boilingPointTemperature, vaporPressure]
  have h10 : (0:ℝ) < 10 := by norm_num
  have h10' : (10:ℝ) ≠ 1 := by norm_num
  have hconst : (14.503773773 : ℝ) ≠ 0 := by norm_num
  rw [mul_div_cancel_right₀ _ hconst, Real.logb_rpow h10 h10']
  set t := (T - 32) * 5 / 9 + 273.15 with ht
  have : c.A - (c.A - c.B / (t + c.C)) = c.B / (t + c.C) := by ring
  rw [this, div_div_eq_mul_div, mul_div_cancel_left₀ _ hB]
  rw [ht]
  ring

/-- Witness for C4 at the propane constants and T = 100 F. -/
theorem boilingPoint_inverts_vaporPressure_witness :
    boilingPointTemperature (vaporPressure 100 propaneConstants) propaneConstants = 100 :=
  boilingPoint_inverts_vaporPressure 100 propaneConstants
    (by unfold propaneConstants; norm_num) (by unfold propaneConstants; norm_num)

/-- CLAIM C5: productRates conserves mass exactly: with x_B < x_F < x_D the
returned pair (D, B) satisfies D + B = F and D x_D + B x_B = F x_F, over any
linear ordered field (hence over the reals). -/
theorem productRates_mass_conservation {α : Type} [LinearOrderedField α]
    (F xF xD xB : α) (h1 : xB < xF) (h2 : xF < xD) :
    (productRates F xF xD xB).1 + (productRates F xF xD xB).2 = F ∧
    (productRates F xF xD xB).1 * xD + (productRates F xF xD xB).2 * xB = F * xF := by
  have hne : xD - xB ≠ 0 := by
    have : xB < xD := lt_trans h1 h2
    intro h
    have : xD = xB := by linarith [sub_eq_zero.mp h]
    linarith
  constructor
  · unfold productRates
    ring
  · unfold productRates
    field_simp
    ring

/-- Witness for C5 at F = 1000, xB = 0.05, xF = 0.5, xD = 0.95 over the rationals. -/
theorem productRates_mass_conservation_witness :
    (productRates (1000:ℚ) (1/2) (19/20) (1/20)).1 + (productRates (1000:ℚ) (1/2) (19/20) (1/20)).2 = 1000 ∧
    (productRates (1000:ℚ) (1/2) (19/20) (1/20)).1 * (19/20)
      + (productRates (1000:ℚ) (1/2) (19/20) (1/20)).2 * (1/20) = 1000 * (1/2) :=
  productRates_mass_conservation 1000 (1/2) (19/20) (1/20) (by norm_num) (by norm_num)

/-- Model of a JavaScript number as seen by the solver control flow: a
finite value of the ordered field, one of the two infinities, or NaN. -/
inductive JVal (α : Type) where
  | fin (r : α)
  | posInf
  | negInf
  | nan
deriving DecidableEq

/-- Number.isFinite of JavaScript. -/
def JVal.isFinite {α : Type} : JVal α → Bool
  | .fin _ => true
  | _ => false

/-- The test Math.abs(v) < TOL of the source; false on both infinities and
on NaN, as in JavaScript. -/
def JVal.absLtTol {α : Type} [LinearOrderedField α] : JVal α → Bool
  | .fin r => decide (|r| < (TOL : α))
  | _ => false

/-- The test v < 0 of the source bisection loop; false on NaN and on
positive infinity, true on negative infinity, as in JavaScript. -/
def JVal.ltZero {α : Type} [LinearOrderedField α] : JVal α → Bool
  | .fin r => decide (r < 0)
  | .negInf => true
  | _ => false

/-- Math.sign of JavaScript: -1, 0, 1 on numbers and infinities, NaN on NaN. -/
def jsign {α : Type} [LinearOrderedField α] : JVal α → JVal α
  | .fin r => .fin (if r < 0 then -1 else if 0 < r then 1 else 0)
  | .posInf => .fin 1
  | .negInf => .fin (-1)
  | .nan => .nan

/-- Strict equality a === b of JavaScript on numbers: NaN is equal to
nothing, including itself. -/
def jsEq {α : Type} [DecidableEq α] : JVal α → JVal α → Bool
  | .fin a, .fin b => decide (a = b)
  | .posInf, .posInf => true
  | .negInf, .negInf => true
  | _, _ => false

/-- Result of the upper bound doubling loop of columnSolver: either the
loop returned maxR directly because the residual was within tolerance, or
it fell through to the post-loop check with the final maxR and residualHi. -/
inductive DoubleRes (α : Type) where
  | retTol (r : α)
  | post (maxR : α) (residualHi : JVal α)

/-- The doubling loop of columnSolver (source lines 344 to 350): on each
iteration maxR is doubled and the residual evaluated; a non-finite
residual is skipped, a residual within tolerance returns maxR from the
solver, a sign change against residualLo breaks out of the loop. -/
def doubleLoop {α : Type} [LinearOrderedField α] (delta : α → JVal α) (residualLo : JVal α) :
    ℕ → α → JVal α → DoubleRes α
  | 0, maxR, residualHi => .post maxR residualHi
  | k + 1, maxR, _residualHi =>
    let maxR2 := maxR * 2
    let residualHi2 := delta maxR2
    if residualHi2.isFinite = false then doubleLoop delta residualLo k maxR2 residualHi2
    else if residualHi2.absLtTol then .retTol maxR2
    else if jsEq (jsign residualHi2) (jsign residualLo) = false then .post maxR2 residualHi2
    else doubleLoop delta residualLo k maxR2 residualHi2

/-- The bisection refinement loop of columnSolver (source lines 358 to
373): at most the given number of iterations, returning -1 when the
iteration budget is exhausted. -/
def bisectLoop {α : Type} [LinearOrderedField α] (delta : α → JVal α) :
    ℕ → α → α → α → α
  | 0, _minR, _maxR, _guessR => -1
  | n + 1, minR, maxR, guessR =>
    let error := delta guessR
    if error.absLtTol then guessR
    else if error.ltZero then bisectLoop delta n minR guessR ((guessR + minR) / 2)
    else bisectLoop delta n guessR maxR ((maxR + guessR) / 2)

/-- columnSolver of the source (lines 329 to 374), parametrized by the
value minRR of the call minimumRefluxRatio(xFeed, xDistillate, pressure,
lightAntConsts, heavyAntConsts) and by the residual oracle delta standing
for the partially applied feedTrayDelta(. , feedRate, xFeed, xDistillate,
xBottoms, pressure, feedTray, totalTrays, lightAntConsts, heavyAntConsts).
The control flow of the source depends on those two subcomputations only
through their returned values, so every terminating run of the source is
reproduced exactly by this function at the oracle that agrees with it. -/
def columnSolver {α : Type} [LinearOrderedField α] (minRR : α) (delta : α → JVal α) : α :=
  let minR := max (1 / 100000000) minRR
  let residualLo := delta minR
  if residualLo.absLtTol then minR
  else
    match doubleLoop delta residualLo MAXITERATIONS minR residualLo with
    | .retTol r => r
    | .post maxR residualHi =>
      if residualHi.isFinite = false ∨ jsEq (jsign residualHi) (jsign residualLo) = true then -1
      else bisectLoop delta MAXITERATIONS minR maxR ((minR + maxR) / 2)

/-- minimumRefluxRatio of the source, parametrized by the equilibrium
vapor fraction function (the source calls vapMolFraction(pressure, feedXp,
lightAntConsts, heavyAntConsts); here vapMF is that function with
pressure and the constant records already applied). -/
def minimumRefluxRatio {α : Type} [Field α] (vapMF : α → α) (feedXp distillateXp : α) : α :=
  let equilibriumYp := vapMF feedXp
  let slope := (distillateXp - equilibriumYp) / (distillateXp - feedXp)
  slope / (1 - slope)

/-- boilUpRatio of the source. -/
def boilUpRatio {α : Type} [Field α] (R distillateRate bottomsRate : α) : α :=
  (R + 1) * distillateRate / bottomsRate

/-- rectifyingOperatingLine of the source. -/
def rectifyingOperatingLine {α : Type} [Field α] (R distillateMolFrac liquidMolFrac : α) : α :=
  R / (R + 1) * liquidMolFrac + distillateMolFrac / (R + 1)

/-- strippingOperatingLine of the source. -/
def strippingOperatingLine {α : Type} [Field α] (S bottomsMolFrac vaporMolFraction : α) : α :=
  (vaporMolFraction + bottomsMolFrac / S) * S / (S + 1)

/-- The three vapor-liquid equilibrium inversion functions used by the
tray stepping code, with pressure and the two constant records already
applied (the source passes them unchanged to every call). -/
structure VLEfns (α : Type) where
  liqMolFraction : α → α
  vapMolFraction : α → α
  equilibriumTemperatureFromX : α → α

/-- Tray record of the source (createTrayObject fields). -/
structure Tray (α : Type) where
  trayNumber : ℕ
  temperature : α
  liqComp : α
  vapComp : α
  refluxRatio : α
  boilUp : α

/-- createTrayObject of the source. -/
def createTrayObject {α : Type} (trayNumber : ℕ) (temperature liqComp vapComp R bU : α) :
    Tray α :=
  { trayNumber := trayNumber, temperature := temperature, liqComp := liqComp,
    vapComp := vapComp, refluxRatio := R, boilUp := bU }

/-- The loop for i = 2 to feedTray of rectifyingSection, iterated on the
number of remaining iterations. -/
def rectSectionLoop {α : Type} [Field α] (vle : VLEfns α) (R distillateMolFrac : α) :
    ℕ → α → α
  | 0, liqMolFrac => liqMolFrac
  | k + 1, liqMolFrac =>
    rectSectionLoop vle R distillateMolFrac k
      (vle.liqMolFraction (rectifyingOperatingLine R distillateMolFrac liqMolFrac))

/-- rectifyingSection of the source (lines 275 to 284): the first tray
takes the equilibrium liquid for the distillate vapor, then the loop runs
for i = 2 to feedTray. -/
def rectifyingSection {α : Type} [Field α] (vle : VLEfns α) (R distillateMolFrac : α)
    (feedTray : ℕ) : α :=
  rectSectionLoop vle R distillateMolFrac (feedTray - 1) (vle.liqMolFraction distillateMolFrac)

/-- The rectifying loop of generateColumnData (source lines 461 to 466),
for i = 1 to feedTray: compute the operating line vapor composition, the
equilibrium liquid composition and temperature, and write tray i at index
i - 1.  The first argument of the recursion is the number of remaining
iterations, the second the current value of i. -/
def genRectLoop {α : Type} [Field α] (vle : VLEfns α) (R xDistillate bU : α) :
    ℕ → ℕ → α → (ℕ → Option (Tray α)) → α × (ℕ → Option (Tray α))
  | 0, _i, liqComp, trays => (liqComp, trays)
  | k + 1, i, liqComp, trays =>
    let vapComp := rectifyingOperatingLine R xDistillate liqComp
    let liqComp2 := vle.liqMolFraction vapComp
    let temp := vle.equilibriumTemperatureFromX liqComp2
    genRectLoop vle R xDistillate bU k (i + 1) liqComp2
      (Function.update trays (i - 1) (some (createTrayObject i temp liqComp2 vapComp R bU)))

/-- The stripping loop of generateColumnData (source lines 469 to 474),
for i = totalTrays + 1 down to feedTray + 1: compute the stripping
operating line liquid composition, the equilibrium vapor composition and
temperature, and write tray i at index i - 1.  The first argument of the
recursion is the number of remaining iterations, the second the current
value of i. -/
def genStripLoop {α : Type} [Field α] (vle : VLEfns α) (R xBottoms bU : α) :
    ℕ → ℕ → α → (ℕ → Option (Tray α)) → ℕ → Option (Tray α)
  | 0, _i, _vapComp, trays => trays
  | k + 1, i, vapComp, trays =>
    let liqComp := strippingOperatingLine bU xBottoms vapComp
    let vapComp2 := vle.vapMolFraction liqComp
    let temp := vle.equilibriumTemperatureFromX liqComp
    genStripLoop vle R xBottoms bU k (i - 1) vapComp2
      (Function.update trays (i - 1) (some (createTrayObject i temp liqComp vapComp2 R bU)))

/-- generateColumnData of the source (lines 453 to 476), with the
JavaScript array modelled as a function from indices to optional trays,
initially everywhere undefined (new Array(totalTrays + 1) creates only
holes).  The rectifying loop runs for i = 1 to feedTray starting from
liqComp = xDistillate, then the stripping loop runs for i = totalTrays + 1
down to feedTray + 1 starting from vapComp = xBottoms. -/
def generateColumnData {α : Type} [Field α] (vle : VLEfns α)
    (feedRate xFeed xDistillate xBottoms : α) (feedTray totalTrays : ℕ) (R : α) :
    ℕ → Option (Tray α) :=
  let rates := productRates feedRate xFeed xDistillate xBottoms
  let bU := boilUpRatio R rates.1 rates.2
  let rect := genRectLoop vle R xDistillate bU feedTray 1 xDistillate (fun _ => none)
  genStripLoop vle R xBottoms bU (totalTrays + 1 - feedTray) (totalTrays + 1) xBottoms rect.2

/-- Body of the bisection while loops of equilibriumTemperatureFromX and
equilibriumTemperatureFromY (source lines 141 to 147 and 170 to 176):
given the residual at the current guess, update (maxT, minT, tempGuess).
On a positive residual maxT becomes the guess and the new guess is the
midpoint of minT and the guess; otherwise minT becomes the guess and the
new guess is the midpoint of maxT and the guess. -/
noncomputable def bisectStep (result maxT minT tempGuess : ℝ) : ℝ × ℝ × ℝ :=
  if 0 < result then (tempGuess, minT, (minT + tempGuess) / 2)
  else (maxT, tempGuess, (maxT + tempGuess) / 2)

/-- The while loop of equilibriumTemperatureFromX with an explicit fuel
parameter: none means the loop did not exit within the given number of
iterations.  The source loop has no iteration cap, so it terminates on an
input exactly when this function returns some value for some fuel. -/
noncomputable def eqTempLoopX (pressure liquidMolFrac : ℝ) (lc hc : AntoineConsts) :
    ℕ → ℝ × ℝ × ℝ → Option ℝ
  | 0, _ => none
  | n + 1, s =>
    let result := binaryequilibriumEquationFromX s.2.2 pressure liquidMolFrac lc hc
    if |result| ≤ (TOL : ℝ) then some s.2.2
    else eqTempLoopX pressure liquidMolFrac lc hc n (bisectStep result s.1 s.2.1 s.2.2)

/-- equilibriumTemperatureFromX of the source (lines 132 to 150) with a
fuel parameter: bracket the temperature between the boiling points of the
light compound (maxT) and of the heavy compound (minT), start at their
midpoint, and bisect on the sign of the Raoult residual. -/
noncomputable def equilibriumTemperatureFromX (fuel : ℕ) (pressure liquidMolFrac : ℝ)
    (lightAntConsts heavyAntConsts : AntoineConsts) : Option ℝ :=
  let maxT := boilingPointTemperature pressure lightAntConsts
  let minT := boilingPointTemperature pressure heavyAntConsts
  eqTempLoopX pressure liquidMolFrac lightAntConsts heavyAntConsts fuel
    (maxT, minT, (maxT + minT) / 2)

/-- The while loop of equilibriumTemperatureFromY with an explicit fuel
parameter; identical to the FromX loop except for the residual function. -/
noncomputable def eqTempLoopY (pressure vaporMolFrac : ℝ) (lc hc : AntoineConsts) :
    ℕ → ℝ × ℝ × ℝ → Option ℝ
  | 0, _ => none
  | n + 1, s =>
    let result := binaryequilibriumEquationFromY s.2.2 pressure vaporMolFrac lc hc
    if |result| ≤ (TOL : ℝ) then some s.2.2
    else eqTempLoopY pressure vaporMolFrac lc hc n (bisectStep result s.1 s.2.1 s.2.2)

/-- equilibriumTemperatureFromY of the source (lines 161 to 179) with a
fuel parameter. -/
noncomputable def equilibriumTemperatureFromY (fuel : ℕ) (pressure vaporMolFrac : ℝ)
    (lightAntConsts heavyAntConsts : AntoineConsts) : Option ℝ :=
  let maxT := boilingPointTemperature pressure lightAntConsts
  let minT := boilingPointTemperature pressure heavyAntConsts
  eqTempLoopY pressure vaporMolFrac lightAntConsts heavyAntConsts fuel
    (maxT, minT, (maxT + minT) / 2)

/-- On a residual above TOL the loop body takes the positive branch and
the next guess is the midpoint of minT and the guess. -/
lemma bisectStep_up (r maxT minT g : ℝ) (hg : g < minT) (hr : (TOL:ℝ) < r) :
    g < (bisectStep r maxT minT g).2.2 := by
  have htol : (0:ℝ) < (TOL:ℝ) := by norm_num [TOL]
  have h0 : (0:ℝ) < r := lt_trans htol hr
  simp only [bisectStep, if_pos h0]
  linarith

/-- On a residual below -TOL the loop body takes the negative branch and
the next guess is the midpoint of maxT and the guess. -/
lemma bisectStep_down (r maxT minT g : ℝ) (hg : maxT < g) (hr : r < -(TOL:ℝ)) :
    (bisectStep r maxT minT g).2.2 < g := by
  have htol : (0:ℝ) < (TOL:ℝ) := by norm_num [TOL]
  have h0 : ¬ (0:ℝ) < r := by linarith
  simp only [bisectStep, if_neg h0]
  linarith

/-- CLAIM C3 (amended): in the equilibrium bisection loops, at an
iteration whose residual has magnitude above TOL, the guess moves in the
direction opposite to the one the claim states: under the maintained
bracket invariant maxT < tempGuess < minT (which holds initially when the
heavy compound boils above the light one, and is preserved by every
step), a positive residual makes the next guess strictly LARGER and a
negative residual strictly SMALLER, for either residual function. -/
theorem bisection_step_direction (pressure x maxT minT tempGuess : ℝ)
    (lc hc : AntoineConsts) (hmax : maxT < tempGuess) (hmin : tempGuess < minT) :
    ((TOL:ℝ) < binaryequilibriumEquationFromX tempGuess pressure x lc hc →
      tempGuess <
        (bisectStep (binaryequilibriumEquationFromX tempGuess pressure x lc hc)
          maxT minT tempGuess).2.2) ∧
    (binaryequilibriumEquationFromX tempGuess pressure x lc hc < -(TOL:ℝ) →
      (bisectStep (binaryequilibriumEquationFromX tempGuess pressure x lc hc)
        maxT minT tempGuess).2.2 < tempGuess) ∧
    ((TOL:ℝ) < binaryequilibriumEquationFromY tempGuess pressure x lc hc →
      tempGuess <
        (bisectStep (binaryequilibriumEquationFromY tempGuess pressure x lc hc)
          maxT minT tempGuess).2.2) ∧
    (binaryequilibriumEquationFromY tempGuess pressure x lc hc < -(TOL:ℝ) →
      (bisectStep (binaryequilibriumEquationFromY tempGuess pressure x lc hc)
        maxT minT tempGuess).2.2 < tempGuess) :=
  ⟨fun hr => bisectStep_up _ maxT minT tempGuess hmin hr,
   fun hr => bisectStep_down _ maxT minT tempGuess hmax hr,
   fun hr => bisectStep_up _ maxT minT tempGuess hmin hr,
   fun hr => bisectStep_down _ maxT minT tempGuess hmax hr⟩

/-- Witness for the amended C3 at pressure 100, composition 0, and the
concrete state maxT = -9, tempGuess = 0, minT = 9. -/
theorem bisection_step_direction_witness :
    ((TOL:ℝ) < binaryequilibriumEquationFromX 0 100 0 propaneConstants butaneConstants →
      (0:ℝ) <
        (bisectStep (binaryequilibriumEquationFromX 0 100 0 propaneConstants butaneConstants)
          (-9) 9 0).2.2) ∧
    (binaryequilibriumEquationFromX 0 100 0 propaneConstants butaneConstants < -(TOL:ℝ) →
      (bisectStep (binaryequilibriumEquationFromX 0 100 0 propaneConstants butaneConstants)
        (-9) 9 0).2.2 < 0) ∧
    ((TOL:ℝ) < binaryequilibriumEquationFromY 0 100 0 propaneConstants butaneConstants →
      (0:ℝ) <
        (bisectStep (binaryequilibriumEquationFromY 0 100 0 propaneConstants butaneConstants)
          (-9) 9 0).2.2) ∧
    (binaryequilibriumEquationFromY 0 100 0 propaneConstants butaneConstants < -(TOL:ℝ) →
      (bisectStep (binaryequilibriumEquationFromY 0 100 0 propaneConstants butaneConstants)
        (-9) 9 0).2.2 < 0) :=
  bisection_step_direction 100 0 (-9) 9 0 propaneConstants butaneConstants
    (by norm_num) (by norm_num)

/-- Probe pressure for the C3 counterexample: 145.03773773 psia, chosen so
that the pressure in bar is exactly 10 and the boiling point brackets are
exact rationals. -/
noncomputable def probeP : ℝ := 145.03773773

/-- Initial maxT of the equilibrium loops at the probe pressure: the
boiling point of the light compound. -/
noncomputable def probeMaxT : ℝ := boilingPointTemperature probeP propaneConstants

/-- Initial minT of the equilibrium loops at the probe pressure: the
boiling point of the heavy compound. -/
noncomputable def probeMinT : ℝ := boilingPointTemperature probeP butaneConstants

/-- Initial guess of the equilibrium loops at the probe pressure. -/
noncomputable def probeGuess : ℝ := (probeMaxT + probeMinT) / 2

/-- Closed form of the initial maxT at the probe pressure. -/
lemma probeMaxT_eq : probeMaxT = (1149.36 / 3.53678 - 24.906 - 273.15) * 9 / 5 + 32 := by
  simp only [probeMaxT, boilingPointTemperature, probeP, propaneConstants]
  have h : (145.03773773 : ℝ) / 14.503773773 = 10 := by norm_num
  rw [h, Real.logb_self_eq_one (by norm_num)]
  norm_num

/-- Closed form of the initial minT at the probe pressure. -/
lemma probeMinT_eq : probeMinT = (1175.581 / 3.35576 + 2.071 - 273.15) * 9 / 5 + 32 := by
  simp only [probeMinT, boilingPointTemperature, probeP, butaneConstants]
  have h : (145.03773773 : ℝ) / 14.503773773 = 10 := by norm_num
  rw [h, Real.logb_self_eq_one (by norm_num)]
  norm_num

/-- Kelvin temperature of the initial guess at the probe pressure. -/
lemma probeGuess_tempK :
    (probeGuess - 32) * 5 / 9 + 273.15 =
      (1149.36 / 3.53678 - 24.906 + (1175.581 / 3.35576 + 2.071)) / 2 := by
  rw [probeGuess, probeMaxT_eq, probeMinT_eq]
  ring

/-- The heavy compound vapor pressure at the initial guess of the probe
run is at most 14.503773773 times 6, hence far below the probe pressure. -/
lemma probe_vaporPressure_le :
    vaporPressure probeGuess butaneConstants ≤ 14.503773773 * 6 := by
  simp only [vaporPressure, butaneConstants]
  rw [probeGuess_tempK]
  have hexp :
      (4.35576 : ℝ) -
          1175.581 /
            ((1149.36 / 3.53678 - 24.906 + (1175.581 / 3.35576 + 2.071)) / 2 + -2.071) ≤
        (3:ℝ) / 4 := by
    norm_num
  have hmono : (10:ℝ) ^
      ((4.35576 : ℝ) -
        1175.581 /
          ((1149.36 / 3.53678 - 24.906 + (1175.581 / 3.35576 + 2.071)) / 2 + -2.071)) ≤
      (10:ℝ) ^ ((3:ℝ)/4) :=
    (Real.rpow_le_rpow_left_iff (by norm_num : (1:ℝ) < 10)).mpr hexp
  have hq : (10:ℝ) ^ ((3:ℝ)/4) ≤ 6 := by
    have h4 : ((10:ℝ) ^ ((3:ℝ)/4)) ^ (4:ℕ) ≤ (6:ℝ) ^ (4:ℕ) := by
      rw [← Real.rpow_natCast ((10:ℝ) ^ ((3:ℝ)/4)) 4, ← Real.rpow_mul (by norm_num : (0:ℝ) ≤ 10)]
      have : ((3:ℝ)/4) * ((4:ℕ):ℝ) = ((3:ℕ):ℝ) := by norm_num
      rw [this, Real.rpow_natCast]
      norm_num
    exact le_of_pow_le_pow_left₀ (by norm_num) (by norm_num) h4
  calc (10:ℝ) ^
      ((4.35576 : ℝ) -
        1175.581 /
          ((1149.36 / 3.53678 - 24.906 + (1175.581 / 3.35576 + 2.071)) / 2 + -2.071)) *
        14.503773773
      ≤ (10:ℝ) ^ ((3:ℝ)/4) * 14.503773773 := by
        have h14 : (0:ℝ) ≤ 14.503773773 := by norm_num
        exact mul_le_mul_of_nonneg_right hmono h14
    _ ≤ 6 * 14.503773773 := by
        have h14 : (0:ℝ) ≤ 14.503773773 := by norm_num
        exact mul_le_mul_of_nonneg_right hq h14
    _ = 14.503773773 * 6 := by ring

/-- CLAIM C3 (counterexample): at the probe pressure, composition x = 0,
and the genuine initial bracket state (the boiling point of the light
compound as maxT, of the heavy compound as minT, their midpoint as the
guess), the residual is above TOL yet the next guess is strictly LARGER
than the current guess, not strictly smaller as the claim states. -/
theorem bisection_step_claim_counterexample :
    (TOL:ℝ) < binaryequilibriumEquationFromX probeGuess probeP 0 propaneConstants butaneConstants ∧
    probeGuess <
      (bisectStep
        (binaryequilibriumEquationFromX probeGuess probeP 0 propaneConstants butaneConstants)
        probeMaxT probeMinT probeGuess).2.2 ∧
    ¬ ((bisectStep
        (binaryequilibriumEquationFromX probeGuess probeP 0 propaneConstants butaneConstants)
        probeMaxT probeMinT probeGuess).2.2 < probeGuess) := by
  have hred : binaryequilibriumEquationFromX probeGuess probeP 0 propaneConstants butaneConstants
      = probeP - vaporPressure probeGuess butaneConstants := by
    simp only [binaryequilibriumEquationFromX]
    ring
  have hres : (TOL:ℝ) <
      binaryequilibriumEquationFromX probeGuess probeP 0 propaneConstants butaneConstants := by
    rw [hred]
    have h1 := probe_vaporPressure_le
    have h2 : (TOL:ℝ) = 1/1000 := by norm_num [TOL]
    rw [h2]
    unfold probeP
    linarith
  have hlt : probeGuess < probeMinT := by
    rw [probeGuess, probeMaxT_eq, probeMinT_eq]
    norm_num
  have hup : probeGuess <
      (bisectStep
        (binaryequilibriumEquationFromX probeGuess probeP 0 propaneConstants butaneConstants)
        probeMaxT probeMinT probeGuess).2.2 :=
    bisectStep_up _ _ _ _ hlt hres
  exact ⟨hres, hup, fun h => absurd (lt_trans hup h) (lt_irrefl _)⟩

/-- Characterization of the within-tolerance test on JavaScript values. -/
lemma JVal.absLtTol_iff {α : Type} [LinearOrderedField α] (v : JVal α) :
    v.absLtTol = true ↔ ∃ d, v = .fin d ∧ |d| < (TOL:α) := by
  cases v <;> simp [JVal.absLtTol]

/-- Every value returned by the bisection refinement loop is the sentinel
-1 or a point whose residual is finite and within tolerance. -/
lemma bisectLoop_spec {α : Type} [LinearOrderedField α] (delta : α → JVal α) :
    ∀ (n : ℕ) (minR maxR g : α),
      bisectLoop delta n minR maxR g = -1 ∨
        ∃ d, delta (bisectLoop delta n minR maxR g) = .fin d ∧ |d| < (TOL:α) := by
  intro n
  induction n with
  | zero => intro minR maxR g; left; rfl
  | succ n ih =>
    intro minR maxR g
    simp only [bisectLoop]
    split
    · next h => right; exact (JVal.absLtTol_iff _).mp h
    · split
      · exact ih _ _ _
      · exact ih _ _ _

/-- Every maxR returned through the within-tolerance exit of the doubling
loop has a finite residual within tolerance. -/
lemma doubleLoop_retTol {α : Type} [LinearOrderedField α] (delta : α → JVal α)
    (residualLo : JVal α) :
    ∀ (k : ℕ) (maxR : α) (resHi : JVal α) (r : α),
      doubleLoop delta residualLo k maxR resHi = .retTol r →
        ∃ d, delta r = .fin d ∧ |d| < (TOL:α) := by
  intro k
  induction k with
  | zero => intro maxR resHi r h; exact absurd h (by simp [doubleLoop])
  | succ k ih =>
    intro maxR resHi r h
    simp only [doubleLoop] at h
    split at h
    · exact ih _ _ _ h
    · split at h
      · next habs =>
          injection h with h1
          subst h1
          exact (JVal.absLtTol_iff _).mp habs
      · split at h
        · exact absurd h (by simp)
        · exact ih _ _ _ h

/-- The doubling loop only grows its trial value: a within-tolerance exit
value is at least the nonnegative lower bound of the initial trial. -/
lemma doubleLoop_ge_retTol {α : Type} [LinearOrderedField α] (delta : α → JVal α)
    (residualLo : JVal α) (c : α) (hc : 0 ≤ c) :
    ∀ (k : ℕ) (maxR : α) (resHi : JVal α) (r : α), c ≤ maxR →
      doubleLoop delta residualLo k maxR resHi = .retTol r → c ≤ r := by
  intro k
  induction k with
  | zero => intro maxR resHi r _ h; exact absurd h (by simp [doubleLoop])
  | succ k ih =>
    intro maxR resHi r hmax h
    simp only [doubleLoop] at h
    have hmax2 : c ≤ maxR * 2 := by linarith
    split at h
    · exact ih _ _ _ hmax2 h
    · split at h
      · injection h with h1; subst h1; exact hmax2
      · split at h
        · exact absurd h (by simp)
        · exact ih _ _ _ hmax2 h

/-- The doubling loop only grows its trial value: the maxR handed to the
post-loop check is at least the nonnegative lower bound of the initial
trial. -/
lemma doubleLoop_ge_post {α : Type} [LinearOrderedField α] (delta : α → JVal α)
    (residualLo : JVal α) (c : α) (hc : 0 ≤ c) :
    ∀ (k : ℕ) (maxR : α) (resHi : JVal α) (m : α) (rh : JVal α), c ≤ maxR →
      doubleLoop delta residualLo k maxR resHi = .post m rh → c ≤ m := by
  intro k
  induction k with
  | zero =>
    intro maxR resHi m rh hmax h
    simp only [doubleLoop] at h
    injection h with h1 h2
    subst h1
    exact hmax
  | succ k ih =>
    intro maxR resHi m rh hmax h
    simp only [doubleLoop] at h
    have hmax2 : c ≤ maxR * 2 := by linarith
    split at h
    · exact ih _ _ _ _ hmax2 h
    · split at h
      · exact absurd h (by simp)
      · split at h
        · injection h with h1 h2; subst h1; exact hmax2
        · exact ih _ _ _ _ hmax2 h

/-- The bisection refinement loop returns -1 or a value at least the
common lower bound of its bracket and guess. -/
lemma bisectLoop_ge {α : Type} [LinearOrderedField α] (delta : α → JVal α) (c : α) :
    ∀ (n : ℕ) (minR maxR g : α), c ≤ minR → c ≤ maxR → c ≤ g →
      bisectLoop delta n minR maxR g = -1 ∨ c ≤ bisectLoop delta n minR maxR g := by
  intro n
  induction n with
  | zero => intro minR maxR g _ _ _; left; rfl
  | succ n ih =>
    intro minR maxR g h1 h2 h3
    simp only [bisectLoop]
    split
    · right; exact h3
    · split
      · exact ih minR g ((g + minR) / 2) h1 h3 (by linarith)
      · exact ih g maxR ((maxR + g) / 2) h3 h2 (by linarith)

/-- Every non-sentinel result of columnSolver is at least the floored
lower bracket max(1e-8, minRR). -/
lemma columnSolver_ge {α : Type} [LinearOrderedField α] (minRR : α) (delta : α → JVal α) :
    columnSolver minRR delta = -1 ∨
      max (1 / 100000000) minRR ≤ columnSolver minRR delta := by
  have hc0 : (0:α) ≤ max (1 / 100000000) minRR :=
    le_trans (by norm_num) (le_max_left _ _)
  simp only [columnSolver]
  split
  · right; exact le_rfl
  · split
    · next r heq =>
        right
        exact doubleLoop_ge_retTol delta _ _ hc0 MAXITERATIONS _ _ r le_rfl heq
    · next m rh heq =>
        have hm : max (1 / 100000000 : α) minRR ≤ m :=
          doubleLoop_ge_post delta _ _ hc0 MAXITERATIONS _ _ m rh le_rfl heq
        split
        · left; rfl
        · exact bisectLoop_ge delta _ MAXITERATIONS _ m _ le_rfl hm (by linarith)

/-- CLAIM C1: every value columnSolver returns is either the sentinel -1
or a reflux ratio at which the residual oracle (the partially applied
feedTrayDelta of the source) is finite with magnitude below TOL; no other
value can be returned.  Quantifying over the oracle covers every
terminating run of the source. -/
theorem columnSolver_residual_disjunction {α : Type} [LinearOrderedField α]
    (minRR : α) (delta : α → JVal α) :
    columnSolver minRR delta = -1 ∨
      ∃ d, delta (columnSolver minRR delta) = .fin d ∧ |d| < (TOL:α) := by
  simp only [columnSolver]
  split
  · next h => right; exact (JVal.absLtTol_iff _).mp h
  · split
    · next r heq => right; exact doubleLoop_retTol delta _ MAXITERATIONS _ _ r heq
    · split
      · left; rfl
      · exact bisectLoop_spec delta MAXITERATIONS _ _ _

/-- CLAIM C10: columnSolver never returns 0, a value in the open interval
(0, 1e-8), or a negative value other than -1: every result is the
sentinel -1 or at least 1e-8, so the caller test result <= 0 detects
exactly the failure cases. -/
theorem columnSolver_sentinel_or_epsilon {α : Type} [LinearOrderedField α]
    (minRR : α) (delta : α → JVal α) :
    columnSolver minRR delta = -1 ∨
      (1 / 100000000 : α) ≤ columnSolver minRR delta := by
  rcases columnSolver_ge minRR delta with h | h
  · exact Or.inl h
  · exact Or.inr (le_trans (le_max_left _ _) h)

/-- CLAIM C6 (amended): a non-sentinel result of columnSolver is at least
the minimum reflux ratio computed for the specification, with equality
possible: the saturated early return hands back exactly the floored
minimum, so the bound is non-strict, not strict as claimed. -/
theorem columnSolver_exceeds_minimum_reflux {α : Type} [LinearOrderedField α]
    (vapMF : α → α) (feedXp distillateXp : α) (delta : α → JVal α) :
    columnSolver ( minimumRefluxRatio vapMF feedXp distillateXp) delta = -1 ∨
      minimumRefluxRatio vapMF feedXp distillateXp ≤
        columnSolver ( minimumRefluxRatio vapMF feedXp distillateXp) delta := by
  rcases columnSolver_ge ( minimumRefluxRatio vapMF feedXp distillateXp) delta with h | h
  · exact Or.inl h
  · exact Or.inr (le_trans (le_max_right _ _) h)

/-- CLAIM C6 (counterexample): with an equilibrium vapor fraction oracle
giving minimum reflux ratio 1 and a residual oracle already within
tolerance at the lower bracket, columnSolver returns exactly the minimum
reflux ratio, which is not strictly greater than itself. -/
theorem columnSolver_strict_bound_counterexample :
    columnSolver ( minimumRefluxRatio (fun _ => (1:ℚ)/2) 0 1) (fun _ => JVal.fin 0) =
      minimumRefluxRatio (fun _ => (1:ℚ)/2) 0 1 ∧
    ¬ ( minimumRefluxRatio (fun _ => (1:ℚ)/2) 0 1 <
        columnSolver ( minimumRefluxRatio (fun _ => (1:ℚ)/2) 0 1) (fun _ => JVal.fin 0)) := by
  have hmin : minimumRefluxRatio (fun _ => (1:ℚ)/2) 0 1 = 1 := by
    norm_num [minimumRefluxRatio]
  rw [hmin]
  have habs : (JVal.fin (0:ℚ)).absLtTol = true := by
    simp [JVal.absLtTol, TOL]
  have hmax : max (1 / 100000000 : ℚ) 1 = 1 := by norm_num
  constructor
  · simp only [columnSolver, hmax, habs, if_pos]
  · simp only [columnSolver, hmax, habs, if_pos]
    exact lt_irrefl 1

/-- CLAIM C7: a non-finite residual never stops the upper bound search
(the doubling loop just advances with the doubled trial), and when the
doubling loop falls through to the post-loop check with a final residual
that is non-finite or whose JavaScript sign strictly equals that of the
lower bound residual, columnSolver returns the sentinel -1. -/
theorem doubling_skips_nonfinite_and_sentinel {α : Type} [LinearOrderedField α]
    (minRR : α) (delta : α → JVal α) (k : ℕ) (maxRa : α) (resHia : JVal α)
    (maxR : α) (residualHi : JVal α)
    (hskip : (delta (maxRa * 2)).isFinite = false)
    (hLoTol : (delta (max (1 / 100000000) minRR)).absLtTol = false)
    (hpost : doubleLoop delta (delta (max (1 / 100000000) minRR)) MAXITERATIONS
        (max (1 / 100000000) minRR) (delta (max (1 / 100000000) minRR)) =
        .post maxR residualHi)
    (hbad : residualHi.isFinite = false ∨
        jsEq (jsign residualHi) (jsign (delta (max (1 / 100000000) minRR))) = true) :
    doubleLoop delta (delta (max (1 / 100000000) minRR)) (k + 1) maxRa resHia =
      doubleLoop delta (delta (max (1 / 100000000) minRR)) k (maxRa * 2) (delta (maxRa * 2)) ∧
    columnSolver minRR delta = -1 := by
  have hne : ¬ ((delta (max (1 / 100000000) minRR)).absLtTol = true) := by
    rw [hLoTol]
    simp
  constructor
  · simp only [doubleLoop]
    rw [if_pos hskip]
  · simp only [columnSolver]
    rw [if_neg hne, hpost]
    dsimp only
    rw [if_pos hbad]

/-- On the constant NaN oracle the doubling loop skips every iteration
and falls through with the doubled trial and the NaN residual. -/
lemma doubleLoop_nan {α : Type} [LinearOrderedField α] (residualLo : JVal α) :
    ∀ (k : ℕ) (maxR : α),
      doubleLoop (fun _ => (JVal.nan : JVal α)) residualLo k maxR JVal.nan =
        .post (maxR * 2 ^ k) JVal.nan := by
  intro k
  induction k with
  | zero => intro maxR; simp [doubleLoop]
  | succ k ih =>
    intro maxR
    simp only [doubleLoop]
    rw [if_pos (show (JVal.nan : JVal α).isFinite = false from rfl)]
    rw [ih (maxR * 2)]
    congr 1
    ring

/-- Witness for C7 with the constant NaN residual oracle over the
rationals: every doubling step is skipped, the cap is exhausted, and the
solver returns -1. -/
theorem doubling_skips_nonfinite_and_sentinel_witness :
    doubleLoop (fun _ => (JVal.nan : JVal ℚ)) JVal.nan (0 + 1) 1 JVal.nan =
      doubleLoop (fun _ => (JVal.nan : JVal ℚ)) JVal.nan 0 (1 * 2) JVal.nan ∧
    columnSolver (1:ℚ) (fun _ => JVal.nan) = -1 :=
  doubling_skips_nonfinite_and_sentinel 1 (fun _ => JVal.nan) 0 1 JVal.nan
    (max (1 / 100000000) 1 * 2 ^ 100) JVal.nan
    rfl rfl (doubleLoop_nan JVal.nan 100 (max (1 / 100000000) 1)) (Or.inl rfl)

/-- Indices outside the write range of the rectifying loop of
generateColumnData keep their previous contents. -/
lemma genRectLoop_preserved {α : Type} [Field α] (vle : VLEfns α) (R xD bU : α) :
    ∀ (k i : ℕ) (liq : α) (trays : ℕ → Option (Tray α)) (j : ℕ), 1 ≤ i →
      (j + 1 < i ∨ i + k ≤ j + 1) →
      (genRectLoop vle R xD bU k i liq trays).2 j = trays j := by
  intro k
  induction k with
  | zero => intro i liq trays j _ _; rfl
  | succ k ih =>
    intro i liq trays j hi hj
    simp only [genRectLoop]
    rw [ih (i + 1) _ _ j (by omega) (by omega)]
    exact Function.update_noteq (by omega) _ _

/-- Indices inside the write range of the rectifying loop hold a tray
record whose tray number is the index plus one. -/
lemma genRectLoop_written {α : Type} [Field α] (vle : VLEfns α) (R xD bU : α) :
    ∀ (k i : ℕ) (liq : α) (trays : ℕ → Option (Tray α)) (j : ℕ), 1 ≤ i →
      i ≤ j + 1 → j + 1 < i + k →
      ∃ t : Tray α, (genRectLoop vle R xD bU k i liq trays).2 j = some t ∧
        t.trayNumber = j + 1 := by
  intro k
  induction k with
  | zero => intro i liq trays j _ h1 h2; omega
  | succ k ih =>
    intro i liq trays j hi h1 h2
    simp only [genRectLoop]
    by_cases hji : j + 1 = i
    · rw [genRectLoop_preserved vle R xD bU k (i + 1) _ _ j (by omega) (by omega)]
      have hidx : i - 1 = j := by omega
      rw [hidx, Function.update_same]
      exact ⟨_, rfl, by simp [createTrayObject]; omega⟩
    · exact ih (i + 1) _ _ j (by omega) (by omega) (by omega)

/-- The liquid composition threaded through the rectifying loop of
generateColumnData is the same iteration as the loop of
rectifyingSection. -/
lemma genRectLoop_fst {α : Type} [Field α] (vle : VLEfns α) (R xD bU : α) :
    ∀ (k i : ℕ) (liq : α) (trays : ℕ → Option (Tray α)),
      (genRectLoop vle R xD bU k i liq trays).1 = rectSectionLoop vle R xD k liq := by
  intro k
  induction k with
  | zero => intro i liq trays; rfl
  | succ k ih =>
    intro i liq trays
    simp only [genRectLoop, rectSectionLoop]
    exact ih _ _ _

/-- The last tray written by the rectifying loop stores the final liquid
composition of the loop. -/
lemma genRectLoop_last {α : Type} [Field α] (vle : VLEfns α) (R xD bU : α) :
    ∀ (k i : ℕ) (liq : α) (trays : ℕ → Option (Tray α)), 1 ≤ k → 1 ≤ i →
      ∃ t : Tray α, (genRectLoop vle R xD bU k i liq trays).2 (i + k - 2) = some t ∧
        t.liqComp = (genRectLoop vle R xD bU k i liq trays).1 := by
  intro k
  induction k with
  | zero => intro i liq trays h _; omega
  | succ k ih =>
    intro i liq trays _ hi
    by_cases hk : k = 0
    · subst hk
      simp only [genRectLoop]
      have hidx : i + 1 - 2 = i - 1 := by omega
      rw [hidx, Function.update_same]
      exact ⟨_, rfl, rfl⟩
    · simp only [genRectLoop]
      have hidx : i + (k + 1) - 2 = (i + 1) + k - 2 := by omega
      rw [hidx]
      exact ih (i + 1) _ _ (by omega) (by omega)

/-- Indices outside the write range of the stripping loop of
generateColumnData keep their previous contents. -/
lemma genStripLoop_preserved {α : Type} [Field α] (vle : VLEfns α) (R xB bU : α) :
    ∀ (k i : ℕ) (vap : α) (trays : ℕ → Option (Tray α)) (j : ℕ), k ≤ i →
      (j + k < i ∨ i ≤ j) →
      genStripLoop vle R xB bU k i vap trays j = trays j := by
  intro k
  induction k with
  | zero => intro i vap trays j _ _; rfl
  | succ k ih =>
    intro i vap trays j hk hj
    simp only [genStripLoop]
    rw [ih (i - 1) _ _ j (by omega) (by omega)]
    exact Function.update_noteq (by omega) _ _

/-- Indices inside the write range of the stripping loop hold a tray
record whose tray number is the index plus one. -/
lemma genStripLoop_written {α : Type} [Field α] (vle : VLEfns α) (R xB bU : α) :
    ∀ (k i : ℕ) (vap : α) (trays : ℕ → Option (Tray α)) (j : ℕ), k ≤ i →
      i - k ≤ j → j < i →
      ∃ t : Tray α, genStripLoop vle R xB bU k i vap trays j = some t ∧
        t.trayNumber = j + 1 := by
  intro k
  induction k with
  | zero => intro i vap trays j _ h1 h2; omega
  | succ k ih =>
    intro i vap trays j hk h1 h2
    simp only [genStripLoop]
    by_cases hji : j = i - 1
    · rw [genStripLoop_preserved vle R xB bU k (i - 1) _ _ j (by omega) (by omega)]
      subst hji
      rw [Function.update_same]
      exact ⟨_, rfl, by simp [createTrayObject]; omega⟩
    · exact ih (i - 1) _ _ j (by omega) (by omega) (by omega)

/-- CLAIM C8: with 1 <= feedTray <= totalTrays, generateColumnData fills
exactly the indices 0 to totalTrays (an array of exactly totalTrays + 1
tray records, no slot left undefined, nothing outside), and the record at
index i carries trayNumber i + 1; in particular the last record has
trayNumber totalTrays + 1, the reboiler entry. -/
theorem generateColumnData_complete {α : Type} [Field α] (vle : VLEfns α)
    (feedRate xFeed xDistillate xBottoms : α) (feedTray totalTrays : ℕ) (R : α)
    (hf1 : 1 ≤ feedTray) (hf2 : feedTray ≤ totalTrays) :
    (∀ i : ℕ,
      (generateColumnData vle feedRate xFeed xDistillate xBottoms feedTray totalTrays R i).isSome
        = true ↔ i < totalTrays + 1) ∧
    (∀ (i : ℕ) (t : Tray α),
      generateColumnData vle feedRate xFeed xDistillate xBottoms feedTray totalTrays R i
        = some t → t.trayNumber = i + 1) := by
  have key : ∀ i : ℕ,
      (i < totalTrays + 1 →
        ∃ t : Tray α,
          generateColumnData vle feedRate xFeed xDistillate xBottoms feedTray totalTrays R i
            = some t ∧ t.trayNumber = i + 1) ∧
      (totalTrays + 1 ≤ i →
        generateColumnData vle feedRate xFeed xDistillate xBottoms feedTray totalTrays R i
          = none) := by
    intro i
    simp only [generateColumnData]
    constructor
    · intro hlt
      by_cases hif : i + 1 ≤ feedTray
      · rw [genStripLoop_preserved vle R xBottoms _ _ _ _ _ i (by omega) (by omega)]
        exact genRectLoop_written vle R xDistillate _ feedTray 1 _ _ i le_rfl (by omega) (by omega)
      · exact genStripLoop_written vle R xBottoms _ _ _ _ _ i (by omega) (by omega) (by omega)
    · intro hge
      rw [genStripLoop_preserved vle R xBottoms _ _ _ _ _ i (by omega) (by omega)]
      rw [genRectLoop_preserved vle R xDistillate _ feedTray 1 _ _ i le_rfl (by omega)]
  constructor
  · intro i
    constructor
    · intro hsome
      by_contra hge
      rw [(key i).2 (by omega)] at hsome
      simp at hsome
    · intro hlt
      rcases (key i).1 hlt with ⟨t, ht, _⟩
      rw [ht]
      rfl
  · intro i t ht
    by_cases hlt : i < totalTrays + 1
    · rcases (key i).1 hlt with ⟨t2, ht2, htn⟩
      rw [ht] at ht2
      injection ht2 with h2
      rw [← h2] at htn
      exact htn
    · rw [(key i).2 (by omega)] at ht
      cases ht

/-- Witness for C8 over the rationals with the identity equilibrium
functions, one feed tray and one total tray: index 0 is filled. -/
theorem generateColumnData_complete_witness :
    ((generateColumnData (⟨id, id, id⟩ : VLEfns ℚ) 1 (1/2) (3/4) (1/4) 1 1 1 0).isSome
      = true ↔ 0 < 1 + 1) :=
  (generateColumnData_complete (⟨id, id, id⟩ : VLEfns ℚ) 1 (1/2) (3/4) (1/4) 1 1 1
    le_rfl le_rfl).1 0

/-- The rectifying operating line fixes the distillate composition when
the reflux ratio is not the degenerate value -1. -/
lemma rectifyingOperatingLine_self {α : Type} [Field α] (R xD : α) (hR : R + 1 ≠ 0) :
    rectifyingOperatingLine R xD xD = xD := by
  unfold rectifyingOperatingLine
  field_simp
  ring

/-- CLAIM C9 (amended): for every reflux ratio R with R + 1 nonzero (the
operating line is degenerate at R = -1), the liquid composition stored by
generateColumnData on the tray with trayNumber feedTray equals
rectifyingSection at the same inputs, for every equilibrium oracle, hence
for the equilibrium functions of the source at any pressure. -/
theorem generateColumnData_feed_tray_rectifying {α : Type} [Field α] (vle : VLEfns α)
    (feedRate xFeed xDistillate xBottoms : α) (feedTray totalTrays : ℕ) (R : α)
    (hf : 1 ≤ feedTray) (hR : R + 1 ≠ 0) :
    ∃ t : Tray α,
      generateColumnData vle feedRate xFeed xDistillate xBottoms feedTray totalTrays R
        (feedTray - 1) = some t ∧
      t.liqComp = rectifyingSection vle R xDistillate feedTray := by
  simp only [generateColumnData]
  rw [genStripLoop_preserved vle R xBottoms _ _ _ _ _ (feedTray - 1) (by omega) (by omega)]
  rcases genRectLoop_last vle R xDistillate _ feedTray 1 xDistillate (fun _ => none)
    hf le_rfl with ⟨t, ht, hliq⟩
  rw [show 1 + feedTray - 2 = feedTray - 1 from by omega] at ht
  refine ⟨t, ht, ?_⟩
  rw [hliq, genRectLoop_fst]
  obtain ⟨m, hm⟩ : ∃ m, feedTray = m + 1 := ⟨feedTray - 1, by omega⟩
  subst hm
  unfold rectifyingSection
  simp only [rectSectionLoop, Nat.add_sub_cancel]
  rw [rectifyingOperatingLine_self R xDistillate hR]

/-- Witness for the amended C9 over the rationals with the identity
equilibrium oracle, R = 0, feed tray 2 of 2. -/
theorem generateColumnData_feed_tray_rectifying_witness :
    ∃ t : Tray ℚ,
      generateColumnData (⟨id, id, id⟩ : VLEfns ℚ) 1 (1/2) (3/4) (1/4) 2 2 0 (2 - 1)
        = some t ∧
      t.liqComp = rectifyingSection (⟨id, id, id⟩ : VLEfns ℚ) 0 (3/4) 2 :=
  generateColumnData_feed_tray_rectifying (⟨id, id, id⟩ : VLEfns ℚ) 1 (1/2) (3/4) (1/4) 2 2 0
    (by norm_num) (by norm_num)

/-- CLAIM C9 (counterexample): at the degenerate reflux ratio R = -1 the
claim fails: with the identity equilibrium oracle over the rationals,
distillate composition 1 and feed tray 1, generateColumnData stores
liquid composition 0 on tray 1 while rectifyingSection returns 1. -/
theorem generateColumnData_rectifying_counterexample :
    Option.map Tray.liqComp
        (generateColumnData (⟨id, id, id⟩ : VLEfns ℚ) 1 1 1 0 1 1 (-1) 0) = some 0 ∧
    rectifyingSection (⟨id, id, id⟩ : VLEfns ℚ) (-1) 1 1 = 1 ∧ (0 : ℚ) ≠ 1 := by
  have hop : rectifyingOperatingLine (-1 : ℚ) 1 1 = 0 := by
    norm_num [rectifyingOperatingLine]
  refine ⟨?_, rfl, by norm_num⟩
  simp only [generateColumnData]
  rw [genStripLoop_preserved _ _ _ _ 1 2 _ _ 0 (by omega) (by omega)]
  simp only [genRectLoop, hop]
  rw [show (1:ℕ) - 1 = 0 from rfl, Function.update_same]
  simp [createTrayObject]

/-- Extreme probe pressure for the termination claim: 14.503773773 times
10 to the -280 psia, a positive pressure whose value in bar is exactly 10
to the -280, making both boiling points exact rationals. -/
noncomputable def lowP : ℝ := 14.503773773 * (10 : ℝ) ^ (-280 : ℝ)

/-- Boiling point of the light compound at the probe pressure (exact). -/
noncomputable def lowFlo : ℝ := (1149.36 / 284.53678 - 24.906 - 273.15) * 9 / 5 + 32

/-- Boiling point of the heavy compound at the probe pressure (exact). -/
noncomputable def lowFhi : ℝ := (1175.581 / 284.35576 + 2.071 - 273.15) * 9 / 5 + 32

/-- Initial bisection guess at the probe pressure. -/
noncomputable def lowFmid : ℝ := (lowFlo + lowFhi) / 2

/-- The probe pressure is positive. -/
lemma lowP_pos : (0:ℝ) < lowP := by
  unfold lowP
  positivity

/-- The probe pressure is at most 14.503773773 psia. -/
lemma lowP_le : lowP ≤ 14.503773773 := by
  unfold lowP
  have h1 : (10:ℝ) ^ (-280 : ℝ) ≤ 1 :=
    Real.rpow_le_one_of_one_le_of_nonpos (by norm_num) (by norm_num)
  nlinarith

/-- The Antoine vapor pressure is never negative: a real power of ten
times a positive constant. -/
lemma vaporPressure_nonneg (T : ℝ) (c : AntoineConsts) : 0 ≤ vaporPressure T c := by
  unfold vaporPressure
  positivity

/-- Closed form of the light boiling point at the probe pressure. -/
lemma lowP_bpL : boilingPointTemperature lowP propaneConstants = lowFlo := by
  simp only [boilingPointTemperature, lowP, propaneConstants, lowFlo]
  rw [mul_div_cancel_left₀ _ (by norm_num : (14.503773773:ℝ) ≠ 0),
    Real.logb_rpow (by norm_num : (0:ℝ) < 10) (by norm_num : (10:ℝ) ≠ 1)]
  norm_num

/-- Closed form of the heavy boiling point at the probe pressure. -/
lemma lowP_bpH : boilingPointTemperature lowP butaneConstants = lowFhi := by
  simp only [boilingPointTemperature, lowP, butaneConstants, lowFhi]
  rw [mul_div_cancel_left₀ _ (by norm_num : (14.503773773:ℝ) ≠ 0),
    Real.logb_rpow (by norm_num : (0:ℝ) < 10) (by norm_num : (10:ℝ) ≠ 1)]
  norm_num

/-- Numeric core for the heavy vapor pressure lower bound: on the whole
probe region the shifted Kelvin denominator d lies in a negative window
on which the Antoine exponent is at least 55. -/
lemma pow_bound_low (d : ℝ) (hlo : 1149.36 / 284.53678 - 26.977 ≤ d)
    (hhi : d ≤ (1149.36 / 284.53678 - 24.906 + (1175.581 / 284.35576 + 2.071)) / 2 - 2.071) :
    145.03773773 ≤ (10:ℝ) ^ ((4.35576:ℝ) - 1175.581 / d) * 14.503773773 := by
  have hdneg : d < 0 := by
    have : ((1149.36 / 284.53678 - 24.906 + (1175.581 / 284.35576 + 2.071)) / 2 - 2.071 : ℝ)
        < 0 := by norm_num
    linarith
  have hdlo_neg : (1149.36 / 284.53678 - 26.977 : ℝ) < 0 := by norm_num
  have hdiv : (1175.581:ℝ) / d ≤ 1175.581 / (1149.36 / 284.53678 - 26.977) := by
    have e1 : (1175.581:ℝ) / d = -(1175.581 / (-d)) := by
      rw [← neg_neg d, div_neg, neg_neg]
    have e2 : (1175.581:ℝ) / (1149.36 / 284.53678 - 26.977) =
        -(1175.581 / (-(1149.36 / 284.53678 - 26.977))) := by
      rw [← neg_neg (1149.36 / 284.53678 - 26.977 : ℝ), div_neg, neg_neg]
    rw [e1, e2, neg_le_neg_iff]
    exact (div_le_div_iff_of_pos_left (by norm_num) (by linarith) (by linarith)).mpr (by linarith)
  have hexp : (55:ℝ) ≤ (4.35576:ℝ) - 1175.581 / d := by
    have : (55:ℝ) ≤ 4.35576 - 1175.581 / (1149.36 / 284.53678 - 26.977) := by norm_num
    linarith
  have hr : (10:ℝ) ^ (55:ℝ) ≤ (10:ℝ) ^ ((4.35576:ℝ) - 1175.581 / d) :=
    (Real.rpow_le_rpow_left_iff (by norm_num : (1:ℝ) < 10)).mpr hexp
  have h10 : (10:ℝ) ≤ (10:ℝ) ^ (55:ℝ) := by
    calc (10:ℝ) = 10 ^ (1:ℝ) := (Real.rpow_one 10).symm
    _ ≤ 10 ^ (55:ℝ) := (Real.rpow_le_rpow_left_iff (by norm_num : (1:ℝ) < 10)).mpr (by norm_num)
  calc (145.03773773:ℝ) = 10 * 14.503773773 := by norm_num
  _ ≤ (10:ℝ) ^ ((4.35576:ℝ) - 1175.581 / d) * 14.503773773 := by
      apply mul_le_mul_of_nonneg_right _ (by norm_num : (0:ℝ) ≤ 14.503773773)
      linarith

/-- On the probe region the heavy compound vapor pressure is enormous. -/
lemma lowP_heavy_big (T : ℝ) (h1 : lowFlo ≤ T) (h2 : T ≤ lowFmid) :
    145.03773773 ≤ vaporPressure T butaneConstants := by
  simp only [lowFlo, lowFhi, lowFmid] at h1 h2
  simp only [vaporPressure, butaneConstants]
  exact pow_bound_low _ (by linarith) (by linarith)

/-- On the probe region the Raoult residual at composition one half is
far below the negative tolerance. -/
lemma lowP_residual_neg (T : ℝ) (h1 : lowFlo ≤ T) (h2 : T ≤ lowFmid) :
    binaryequilibriumEquationFromX T lowP (1/2) propaneConstants butaneConstants
      < -(TOL:ℝ) := by
  have hbig := lowP_heavy_big T h1 h2
  have hnn : 0 ≤ vaporPressure T propaneConstants := vaporPressure_nonneg T propaneConstants
  have hle := lowP_le
  have htol : (TOL:ℝ) = 1/1000 := by norm_num [TOL]
  simp only [binaryequilibriumEquationFromX]
  rw [htol]
  linarith

/-- The FromX bisection loop at the probe pressure and composition one
half never exits: every guess stays inside the probe region, where the
residual is always below the negative tolerance, so the loop always takes
the downward branch and the invariant is preserved. -/
lemma lowP_loop_none :
    ∀ (n : ℕ) (maxT minT g : ℝ), lowFlo ≤ maxT → maxT < g → g ≤ lowFmid →
      eqTempLoopX lowP (1/2) propaneConstants butaneConstants n (maxT, minT, g) = none := by
  intro n
  induction n with
  | zero => intro maxT minT g _ _ _; rfl
  | succ n ih =>
    intro maxT minT g h1 h2 h3
    have hres : binaryequilibriumEquationFromX g lowP (1/2) propaneConstants butaneConstants
        < -(TOL:ℝ) := lowP_residual_neg g (by linarith) h3
    have htolpos : (0:ℝ) < (TOL:ℝ) := by norm_num [TOL]
    simp only [eqTempLoopX]
    rw [if_neg (by rw [abs_of_neg (by linarith)]; linarith)]
    have hstep : bisectStep
        (binaryequilibriumEquationFromX g lowP (1/2) propaneConstants butaneConstants)
        maxT minT g = (maxT, g, (maxT + g) / 2) := by
      unfold bisectStep
      rw [if_neg (by linarith)]
    rw [hstep]
    exact ih maxT g ((maxT + g) / 2) h1 (by linarith) (by linarith)

/-- The full FromX solve at the probe input returns none for every fuel. -/
lemma lowP_eqX_none (fuel : ℕ) :
    equilibriumTemperatureFromX fuel lowP (1/2) propaneConstants butaneConstants = none := by
  simp only [equilibriumTemperatureFromX]
  rw [lowP_bpL, lowP_bpH]
  have hlt : lowFlo < lowFhi := by
    unfold lowFlo lowFhi
    norm_num
  exact lowP_loop_none fuel lowFlo lowFhi ((lowFlo + lowFhi) / 2) le_rfl (by linarith)
    (le_of_eq rfl)

/-- CLAIM C2 (amended): the equilibrium bisection loops are NOT total on
pressure > 0 and mole fraction in the unit interval: there is a positive
pressure and a composition in the unit interval (14.503773773e-280 psia,
x = 1/2) at which equilibriumTemperatureFromX never exits, whatever fuel
it is given; a defensive iteration cap is required for totality. -/
theorem equilibrium_solves_not_total :
    ∃ pressure x : ℝ, 0 < pressure ∧ 0 ≤ x ∧ x ≤ 1 ∧
      ∀ fuel : ℕ,
        equilibriumTemperatureFromX fuel pressure x propaneConstants butaneConstants = none :=
  ⟨lowP, 1/2, lowP_pos, by norm_num, by norm_num, lowP_eqX_none⟩

/-- CLAIM C2 (counterexample): at the concrete probe input the FromX
while loop does not terminate: no amount of fuel makes it produce a
value, refuting the claim that both solves terminate for every pressure
above zero and mole fraction in the unit interval. -/
theorem equilibrium_termination_counterexample :
    ¬ ∃ fuel : ℕ,
      (equilibriumTemperatureFromX fuel lowP (1/2) propaneConstants butaneConstants).isSome
        = true := by
  rintro ⟨fuel, h⟩
  rw [lowP_eqX_none fuel] at h
  simp at h
